import Mathlib

/-!
Verification of the connection-dispatch core of the glutton honeypot
(`glutton.go`): the rule-driven handler registrar (`registerHandlers`),
the per-connection dispatch callback, identity persistence (`makeID`),
shutdown (`Shutdown`) and telemetry (`Produce`).

The Go code is embedded shallowly: the handler registry
(`map[string]protocolHandlerFunc`) becomes an association list with Go
map semantics (lookup of a missing key yields the zero value `none`,
i.e. a nil function), external collaborators (the freki processor, the
SSH/telnet proxy constructors, the producer, the network connection)
become parameters recording their outcomes, and side effects (log
lines, `RegisterConnHandler` calls, channel sends) become event traces.
-/

namespace Glutton

/-- A Go `protocolHandlerFunc` value, abstracted to an identifier; the
registry stores `Option ProtocolHandlerFunc`, `none` being the nil func. -/
abbrev ProtocolHandlerFunc := Nat

/-- The `protocolHandlers` field: `map[string]protocolHandlerFunc`. -/
abbrev Registry := List (String × Option ProtocolHandlerFunc)

/-- Go map read `m[k]`: the stored value if the key is present, the zero
value (nil func, `none`) otherwise. -/
def lookupGo (m : Registry) (k : String) : Option ProtocolHandlerFunc :=
  match m.find? (fun p => p.1 == k) with
  | some p => p.2
  | none => none

/-- Whether `k` is a key of the map (Go `_, ok := m[k]`). -/
def hasKey (m : Registry) (k : String) : Bool :=
  m.any (fun p => p.1 == k)

/-- Go `delete(m, k)`. -/
def deleteGo (m : Registry) (k : String) : Registry :=
  m.filter (fun p => p.1 != k)

/-- Go map write `m[k] = v` (overwrites any previous binding of `k`). -/
def insertGo (m : Registry) (k : String) (v : Option ProtocolHandlerFunc) : Registry :=
  (k, v) :: deleteGo m k

/-- A `freki.Rule` restricted to the three fields `registerHandlers`
reads (Go field `Type` is spelled `Type_` here). -/
structure Rule where
  Type_ : String
  Name : String
  Target : String
deriving Repr, DecidableEq

/-- Log lines emitted by `registerHandlers`. -/
inductive LogMsg
  /-- `[glutton ] no handler found for %v protocol` (Warn). -/
  | warnNoHandler (handler : String)
  /-- `[ssh.prxy] failed to initialize SSH proxy` (Error). -/
  | errSSHInit
  /-- `[telnet.prxy] failed to initialize TELNET proxy` (Error). -/
  | errTelnetInit
deriving Repr, DecidableEq

/-- The state `registerHandlers` reads and writes: the handler registry
and the ordered list of handler names passed to
`Processor.RegisterConnHandler`. -/
structure RegState where
  protocolHandlers : Registry
  registered : List String
deriving Repr, DecidableEq

/-- The `switch rule.Name` block of `registerHandlers` (glutton.go
lines 160-188), for one eligible rule: computes the final `handler`
name, the registry after the switch, and the (possibly mutated) rule.
`sshOk t` / `telnetOk t` record whether `NewSSHProxy t` /
`NewTelnetProxy t` (constructors outside this file's scope) return nil
error. An `.error` result is the `continue` taken on construction
failure. -/
def resolveRule (sshOk telnetOk : String → Bool) (reg : Registry) (r : Rule) :
    Except LogMsg (String × Registry × Rule) :=
  match r.Name with
  | "proxy_tcp" =>
      .ok (r.Target, deleteGo (insertGo reg r.Target (lookupGo reg r.Name)) r.Name, r)
  | "proxy_ssh" =>
      if sshOk r.Target then .ok (r.Name, reg, { r with Target := r.Name })
      else .error .errSSHInit
  | "proxy_telnet" =>
      if telnetOk r.Target then .ok (r.Name, reg, { r with Target := r.Name })
      else .error .errTelnetInit
  | _ => .ok (r.Target, reg, r)

/-- One iteration of the `registerHandlers` loop (glutton.go lines
154-231): returns the new state, the rule as left in `g.rules` (rules
are pointers, so `rule.Target = handler` mutates the stored rule), and
the log lines emitted. -/
def processRule (sshOk telnetOk : String → Bool) (st : RegState) (r : Rule) :
    RegState × Rule × List LogMsg :=
  if r.Type_ = "conn_handler" ∧ r.Target ≠ "" then
    match resolveRule sshOk telnetOk st.protocolHandlers r with
    | .error e => (st, r, [e])
    | .ok (h, reg', r') =>
      match lookupGo reg' h with
      | none => ({ st with protocolHandlers := reg' }, r', [.warnNoHandler h])
      | some _ =>
          ({ protocolHandlers := reg', registered := st.registered ++ [h] }, r', [])
  else (st, r, [])

/-- `registerHandlers` (glutton.go lines 153-232): folds `processRule`
over the rule list, collecting the final state, the rules as mutated in
place, and all log lines in order. -/
def registerHandlers (sshOk telnetOk : String → Bool) (st : RegState) :
    List Rule → RegState × List Rule × List LogMsg
  | [] => (st, [], [])
  | r :: rs =>
    let p := processRule sshOk telnetOk st r
    let rest := registerHandlers sshOk telnetOk p.1 rs
    (rest.1, p.2.1 :: rest.2.1, p.2.2 ++ rest.2.2)

/-- `freki.Metadata`, restricted to the field the callback reads. -/
structure Metadata where
  TargetPort : Nat
deriving Repr, DecidableEq

/-- Observable actions of the dispatch callback registered by
`registerHandlers` (glutton.go lines 195-229), in execution order. -/
inductive CbEvent
  /-- Debug log `connection not tracked` (nil metadata). -/
  | debugUntracked
  /-- Debug log `new connection: host:port -> dest`. -/
  | debugNewConn
  /-- The `g.Producer.Log(conn, md, nil)` telemetry call. -/
  | telemetryEmit
  /-- Error log after a failed telemetry call. -/
  | errorLogged
  /-- `go g.closeOnShutdown(conn, done)`: the watchdog task is spawned. -/
  | spawnWatchdog
  /-- `g.protocolHandlers[handler](ctx, conn)`: the handler is invoked. -/
  | handlerInvoke
  /-- `done <- struct{}{}`: the done-channel is signaled. -/
  | doneSignal
deriving Repr, DecidableEq

/-- The dispatch callback passed to `Processor.RegisterConnHandler`
(glutton.go lines 195-229). External outcomes are parameters:
`split` is `net.SplitHostPort` on the peer address, `md` the freki
metadata (`none` = untracked), `producerLog` is `none` when
`g.Producer == nil` and otherwise the result of `Producer.Log`,
`setDeadline` the result of `conn.SetDeadline`, and `handlerRes` the
handler's return value. Returns the event trace and the Go return
value (`.ok ()` = nil error). -/
def connCallback (split : Except String (String × String)) (md : Option Metadata)
    (producerLog : Option (Except String Unit)) (setDeadline : Except String Unit)
    (handlerRes : Except String Unit) : List CbEvent × Except String Unit :=
  match split with
  | .error e => ([], .error e)
  | .ok _ =>
    match md with
    | none => ([.debugUntracked], .ok ())
    | some _ =>
      match producerLog with
      | some (.error e) => ([.debugNewConn, .telemetryEmit, .errorLogged], .error e)
      | p =>
        let pre := [CbEvent.debugNewConn] ++
          (if p.isSome then [CbEvent.telemetryEmit] else []) ++ [CbEvent.spawnWatchdog]
        match setDeadline with
        | .error e => (pre, .error e)
        | .ok _ => (pre ++ [.handlerInvoke, .doneSignal], handlerRes)

/-- Observable actions of `Shutdown` (glutton.go lines 244-260). -/
inductive ShutdownEv
  /-- `g.cancel()`: the global context is canceled. -/
  | cancelCall
  /-- `time.Sleep(2 * time.Second)`: the grace-interval drain wait. -/
  | drainSleep
  /-- `g.Processor.Shutdown()`: the packet processor is stopped. -/
  | processorShutdown
  /-- deferred `g.Logger.Sync()`. -/
  | loggerSync
deriving Repr, DecidableEq

/-- `Shutdown` (glutton.go lines 244-260): unconditionally cancels the
context, sleeps the 2-second grace interval, stops the processor and
(deferred) syncs the logger; returns `Processor.Shutdown()`'s result
`procResult`. There is no state guard of any kind. -/
def Shutdown (procResult : Except String Unit) : List ShutdownEv × Except String Unit :=
  ([.cancelCall, .drainSleep, .processorShutdown, .loggerSync], procResult)

/-- The trace of `n` successive `Shutdown` calls. -/
def shutdownTrace (procResult : Except String Unit) : Nat → List ShutdownEv
  | 0 => []
  | n + 1 => (Shutdown procResult).1 ++ shutdownTrace procResult n

/-- Observable action of `Produce` (glutton.go lines 239-241). -/
inductive ProduceEv
  /-- The method call `g.Producer.Log(conn, md, payload)`;
  `receiverPresent` is false when `g.Producer` is the nil pointer. -/
  | producerLogCall (receiverPresent : Bool)
deriving Repr, DecidableEq

/-- `Produce` (glutton.go lines 239-241): returns
`g.Producer.Log(conn, md, payload)` with no nil check on `g.Producer`.
`producerLog` is `none` when no producer is configured, otherwise the
result `Producer.Log` would return. `producer.Log` lives outside this
repository and dereferences its receiver, so the call with a nil
receiver faults; the fault is modelled as the distinguished error
result. -/
def Produce (producerLog : Option (Except String Unit)) :
    List ProduceEv × Except String Unit :=
  ([.producerLogCall producerLog.isSome],
   match producerLog with
   | some r => r
   | none => .error "runtime error: invalid memory address or nil pointer dereference")

/-- Modelled from the spec: `uuid.FromBytes` of the external
satori/go.uuid library, which "parses" the identity file's bytes;
per the spec an identity is "a binary blob of the raw identity bytes",
and parsing succeeds exactly on a full-length (16-byte) blob, returning
the identity those bytes denote. -/
def uuidFromBytes (b : List Nat) : Except String (List Nat) :=
  if b.length = 16 then .ok b else .error "uuid: UUID must be exactly 16 bytes long"

/-- `makeID` (glutton.go lines 121-150), with the filesystem abstracted
to the content of `<var-dir>/glutton.id` (`none` = absent) and
`uuid.NewV4()` to the 16 fresh random bytes `fresh` it would produce.
Returns the resulting identity and the resulting file content. If the
file is absent the fresh identity is generated and written; otherwise
the file's bytes are read and parsed, and the file is left untouched.
I/O failures of `MkdirAll`/`Open`/`ReadAll`/`WriteFile` are outside
this model. -/
def makeID (file : Option (List Nat)) (fresh : List Nat) :
    Except String (List Nat × Option (List Nat)) :=
  match file with
  | none => .ok (fresh, some fresh)
  | some buff =>
    match uuidFromBytes buff with
    | .ok id => .ok (id, some buff)
    | .error e => .error e

/-! ### Helper lemmas -/

/-- A deleted key is no longer a key. -/
lemma hasKey_deleteGo (m : Registry) (k : String) : hasKey (deleteGo m k) k = false := by
  simp only [hasKey, deleteGo, List.any_eq_false]
  intro p hp
  rcases List.mem_filter.mp hp with ⟨-, hne⟩
  simpa using hne

/-- Go map read on a cons cell. -/
lemma lookupGo_cons (a : String × Option ProtocolHandlerFunc) (l : Registry) (k : String) :
    lookupGo (a :: l) k = if a.1 = k then a.2 else lookupGo l k := by
  by_cases h : a.1 = k
  · have hb : (a.1 == k) = true := by simp [h]
    simp [lookupGo, List.find?, hb, h]
  · have hb : (a.1 == k) = false := by simp [h]
    simp [lookupGo, List.find?, hb, h]

/-- Go map read after a `delete`. -/
lemma lookupGo_deleteGo (m : Registry) (j k : String) :
    lookupGo (deleteGo m j) k = if k = j then none else lookupGo m k := by
  induction m with
  | nil => simp [lookupGo, deleteGo]
  | cons a l ih =>
    by_cases haj : a.1 = j
    · have hb : (a.1 != j) = false := by simp [haj]
      rw [show deleteGo (a :: l) j = deleteGo l j by
        simp [deleteGo, List.filter_cons, hb]]
      rw [ih, lookupGo_cons]
      by_cases hkj : k = j
      · simp [hkj]
      · have hak : ¬(a.1 = k) := fun hh => hkj (hh.symm.trans haj)
        simp [hkj, hak]
    · have hb : (a.1 != j) = true := by simp [bne, haj]
      rw [show deleteGo (a :: l) j = a :: deleteGo l j by
        simp [deleteGo, List.filter_cons, hb]]
      rw [lookupGo_cons, lookupGo_cons, ih]
      by_cases hak : a.1 = k
      · have hkj : ¬(k = j) := fun hh => haj (hak.trans hh)
        simp [hak, hkj]
      · simp [hak]

/-- Go map read after a write. -/
lemma lookupGo_insertGo (m : Registry) (j : String) (v : Option ProtocolHandlerFunc)
    (k : String) :
    lookupGo (insertGo m j v) k = if k = j then v else lookupGo m k := by
  rw [insertGo, lookupGo_cons]
  by_cases hjk : j = k
  · simp [hjk]
  · have hkj : ¬(k = j) := fun hh => hjk hh.symm
    simp [hjk, hkj, lookupGo_deleteGo]

/-- An ineligible rule is skipped without any effect. -/
lemma processRule_not_eligible (sshOk telnetOk : String → Bool) (st : RegState) (r : Rule)
    (h : ¬(r.Type_ = "conn_handler" ∧ r.Target ≠ "")) :
    processRule sshOk telnetOk st r = (st, r, []) := by
  simp [processRule, h]

/-- A failed proxy bootstrap leaves the state and the rule unchanged and
logs the construction error. -/
lemma processRule_proxyFail (sshOk telnetOk : String → Bool) (st : RegState) (r : Rule)
    (hc : r.Type_ = "conn_handler" ∧ r.Target ≠ "")
    (e : LogMsg)
    (hres : resolveRule sshOk telnetOk st.protocolHandlers r = .error e) :
    processRule sshOk telnetOk st r = (st, r, [e]) := by
  simp [processRule, hc, hres]

/-- A resolved name with no usable handler: registry update kept,
warning logged, nothing registered. -/
lemma processRule_warn (sshOk telnetOk : String → Bool) (st : RegState) (r : Rule)
    (hc : r.Type_ = "conn_handler" ∧ r.Target ≠ "")
    (h : String) (reg' : Registry) (r' : Rule)
    (hres : resolveRule sshOk telnetOk st.protocolHandlers r = .ok (h, reg', r'))
    (hl : lookupGo reg' h = none) :
    processRule sshOk telnetOk st r =
      ({ st with protocolHandlers := reg' }, r', [.warnNoHandler h]) := by
  simp [processRule, hc, hres, hl]

/-- A resolved name with a usable handler: the dispatch callback is
registered under it. -/
lemma processRule_ok (sshOk telnetOk : String → Bool) (st : RegState) (r : Rule)
    (hc : r.Type_ = "conn_handler" ∧ r.Target ≠ "")
    (h : String) (reg' : Registry) (r' : Rule) (f : ProtocolHandlerFunc)
    (hres : resolveRule sshOk telnetOk st.protocolHandlers r = .ok (h, reg', r'))
    (hl : lookupGo reg' h = some f) :
    processRule sshOk telnetOk st r =
      (⟨reg', st.registered ++ [h]⟩, r', []) := by
  simp [processRule, hc, hres, hl]

/-- A rule whose name is none of the three proxy keywords resolves to
its own target, leaving registry and rule untouched. -/
lemma resolveRule_default (sshOk telnetOk : String → Bool) (reg : Registry) (r : Rule)
    (hn : r.Name ∉ (["proxy_tcp", "proxy_ssh", "proxy_telnet"] : List String)) :
    resolveRule sshOk telnetOk reg r = .ok (r.Target, reg, r) := by
  unfold resolveRule
  split
  · simp_all
  · simp_all
  · simp_all
  · rfl

/-- A `proxy_ssh` rule whose SSH proxy fails to construct resolves to
the `continue` with the SSH error log. -/
lemma resolveRule_sshFail (sshOk telnetOk : String → Bool) (reg : Registry) (r : Rule)
    (hnm : r.Name = "proxy_ssh") (hf : sshOk r.Target = false) :
    resolveRule sshOk telnetOk reg r = .error .errSSHInit := by
  rcases r with ⟨ty, nm, tg⟩
  simp only at hnm hf
  subst hnm
  simp [resolveRule, hf]

/-- A `proxy_telnet` rule whose telnet proxy fails to construct
resolves to the `continue` with the telnet error log. -/
lemma resolveRule_telnetFail (sshOk telnetOk : String → Bool) (reg : Registry) (r : Rule)
    (hnm : r.Name = "proxy_telnet") (hf : telnetOk r.Target = false) :
    resolveRule sshOk telnetOk reg r = .error .errTelnetInit := by
  rcases r with ⟨ty, nm, tg⟩
  simp only at hnm hf
  subst hnm
  simp [resolveRule, hf]

/-- The only registry write the switch performs is the `proxy_tcp`
rename, which copies the entry under the old name; hence once the
lookups under `"proxy_tcp"` and under any key `k` are nil, the lookup
under `k` is still nil in the registry the switch hands on. -/
lemma resolveRule_registry_nil (sshOk telnetOk : String → Bool) (reg : Registry) (r : Rule)
    (h : String) (reg' : Registry) (r' : Rule)
    (hres : resolveRule sshOk telnetOk reg r = .ok (h, reg', r'))
    (hpt : lookupGo reg "proxy_tcp" = none)
    (k : String) (hk : lookupGo reg k = none) :
    lookupGo reg' k = none := by
  unfold resolveRule at hres
  split at hres
  next heq =>
    simp only [Except.ok.injEq, Prod.mk.injEq] at hres
    obtain ⟨-, hreg, -⟩ := hres
    rw [← hreg, heq, hpt, lookupGo_deleteGo]
    by_cases h1 : k = "proxy_tcp"
    · simp [h1]
    · rw [if_neg h1, lookupGo_insertGo]
      by_cases h2 : k = r.Target
      · simp [h2]
      · simp [h2, hk]
  next =>
    split at hres
    · simp only [Except.ok.injEq, Prod.mk.injEq] at hres
      obtain ⟨-, hreg, -⟩ := hres
      rw [← hreg]
      exact hk
    · exact absurd hres (by simp)
  next =>
    split at hres
    · simp only [Except.ok.injEq, Prod.mk.injEq] at hres
      obtain ⟨-, hreg, -⟩ := hres
      rw [← hreg]
      exact hk
    · exact absurd hres (by simp)
  next =>
    simp only [Except.ok.injEq, Prod.mk.injEq] at hres
    obtain ⟨-, hreg, -⟩ := hres
    rw [← hreg]
    exact hk

/-- One loop iteration preserves nil-ness of the `"proxy_tcp"` entry
and of any other nil entry `k`: every registry value the loop ever
writes under a new key is copied from the (nil) `"proxy_tcp"` entry. -/
lemma processRule_preserves_nil (sshOk telnetOk : String → Bool) (st : RegState) (r : Rule)
    (k : String)
    (hpt : lookupGo st.protocolHandlers "proxy_tcp" = none)
    (hk : lookupGo st.protocolHandlers k = none) :
    lookupGo (processRule sshOk telnetOk st r).1.protocolHandlers "proxy_tcp" = none ∧
    lookupGo (processRule sshOk telnetOk st r).1.protocolHandlers k = none := by
  by_cases hc : r.Type_ = "conn_handler" ∧ r.Target ≠ ""
  · rcases hres : resolveRule sshOk telnetOk st.protocolHandlers r with e | ⟨h, reg', r'⟩
    · rw [processRule_proxyFail sshOk telnetOk st r hc e hres]
      exact ⟨hpt, hk⟩
    · have h1 := resolveRule_registry_nil sshOk telnetOk st.protocolHandlers r h reg' r'
        hres hpt "proxy_tcp" hpt
      have h2 := resolveRule_registry_nil sshOk telnetOk st.protocolHandlers r h reg' r'
        hres hpt k hk
      rcases hl : lookupGo reg' h with _ | f
      · rw [processRule_warn sshOk telnetOk st r hc h reg' r' hres hl]
        exact ⟨h1, h2⟩
      · rw [processRule_ok sshOk telnetOk st r hc h reg' r' f hres hl]
        exact ⟨h1, h2⟩
  · rw [processRule_not_eligible sshOk telnetOk st r hc]
    exact ⟨hpt, hk⟩

/-- Running any tail of the rule list preserves nil-ness of the
`"proxy_tcp"` entry and of any other nil entry `k`. -/
lemma registerHandlers_preserves_nil (sshOk telnetOk : String → Bool) (st : RegState)
    (rules : List Rule) (k : String)
    (hpt : lookupGo st.protocolHandlers "proxy_tcp" = none)
    (hk : lookupGo st.protocolHandlers k = none) :
    lookupGo (registerHandlers sshOk telnetOk st rules).1.protocolHandlers
      "proxy_tcp" = none ∧
    lookupGo (registerHandlers sshOk telnetOk st rules).1.protocolHandlers k = none := by
  induction rules generalizing st with
  | nil => exact ⟨hpt, hk⟩
  | cons r rs ih =>
    have hstep := processRule_preserves_nil sshOk telnetOk st r k hpt hk
    simpa only [registerHandlers] using
      ih (processRule sshOk telnetOk st r).1 hstep.1 hstep.2

/-- `registerHandlers` threads its state left to right through an
appended rule list. -/
lemma registerHandlers_append (sshOk telnetOk : String → Bool) (st : RegState)
    (xs ys : List Rule) :
    (registerHandlers sshOk telnetOk st (xs ++ ys)).1 =
      (registerHandlers sshOk telnetOk (registerHandlers sshOk telnetOk st xs).1 ys).1 := by
  induction xs generalizing st with
  | nil => simp [registerHandlers]
  | cons x xs ih => simp [registerHandlers, ih]

/-! ### Claims -/

/-- C2: for a rule `{Type: "conn_handler", Name: "proxy_tcp", Target:
"8080"}` with a relay handler pre-registered under `"proxy_tcp"`, after
`registerHandlers` the handler is in the registry under key `"8080"`,
`"proxy_tcp"` is no longer a registry key, and the dispatch callback is
registered under `"8080"`. -/
theorem proxy_tcp_rename (sshOk telnetOk : String → Bool) (st : RegState)
    (f : ProtocolHandlerFunc)
    (hpre : lookupGo st.protocolHandlers "proxy_tcp" = some f) :
    lookupGo (registerHandlers sshOk telnetOk st
        [⟨"conn_handler", "proxy_tcp", "8080"⟩]).1.protocolHandlers "8080" = some f ∧
    hasKey (registerHandlers sshOk telnetOk st
        [⟨"conn_handler", "proxy_tcp", "8080"⟩]).1.protocolHandlers "proxy_tcp" = false ∧
    (registerHandlers sshOk telnetOk st
        [⟨"conn_handler", "proxy_tcp", "8080"⟩]).1.registered =
      st.registered ++ ["8080"] := by
  have hres : resolveRule sshOk telnetOk st.protocolHandlers
      ⟨"conn_handler", "proxy_tcp", "8080"⟩ =
      .ok ("8080",
        deleteGo (insertGo st.protocolHandlers "8080"
          (lookupGo st.protocolHandlers "proxy_tcp")) "proxy_tcp",
        ⟨"conn_handler", "proxy_tcp", "8080"⟩) := rfl
  rw [hpre] at hres
  have hl : lookupGo (deleteGo (insertGo st.protocolHandlers "8080" (some f))
      "proxy_tcp") "8080" = some f := by
    simp [lookupGo, deleteGo, insertGo, List.find?]
  have hp := processRule_ok sshOk telnetOk st ⟨"conn_handler", "proxy_tcp", "8080"⟩
    (by decide) "8080" _ _ f hres hl
  simp only [registerHandlers, hp]
  exact ⟨hl, hasKey_deleteGo _ _, trivial⟩

/-- C2 witness. -/
theorem proxy_tcp_rename_witness :
    lookupGo (registerHandlers (fun _ => true) (fun _ => true) ⟨[("proxy_tcp", some 7)], []⟩
        [⟨"conn_handler", "proxy_tcp", "8080"⟩]).1.protocolHandlers "8080" = some 7 ∧
    hasKey (registerHandlers (fun _ => true) (fun _ => true) ⟨[("proxy_tcp", some 7)], []⟩
        [⟨"conn_handler", "proxy_tcp", "8080"⟩]).1.protocolHandlers "proxy_tcp" = false ∧
    (registerHandlers (fun _ => true) (fun _ => true) ⟨[("proxy_tcp", some 7)], []⟩
        [⟨"conn_handler", "proxy_tcp", "8080"⟩]).1.registered = [] ++ ["8080"] :=
  proxy_tcp_rename (fun _ => true) (fun _ => true) ⟨[("proxy_tcp", some 7)], []⟩ 7 rfl

/-- C4 counterexample: calling `Shutdown` twice runs the 2-second drain
wait twice and stops the packet processor twice — the second call is
not a no-op. -/
theorem shutdown_twice_counterexample :
    ((Shutdown (.ok ())).1 ++ (Shutdown (.ok ())).1).count ShutdownEv.drainSleep = 2 ∧
    ((Shutdown (.ok ())).1 ++ (Shutdown (.ok ())).1).count ShutdownEv.processorShutdown = 2 := by
  decide

/-- C4 amended: `Shutdown` keeps no state and is not idempotent — every
one of `n` successive calls re-cancels the context, re-runs the
2-second grace-interval drain wait and re-stops the packet processor,
and each call returns whatever `Processor.Shutdown()` returns. -/
theorem shutdown_not_idempotent (procResult : Except String Unit) (n : Nat) :
    (shutdownTrace procResult n).count ShutdownEv.cancelCall = n ∧
    (shutdownTrace procResult n).count ShutdownEv.drainSleep = n ∧
    (shutdownTrace procResult n).count ShutdownEv.processorShutdown = n ∧
    (Shutdown procResult).2 = procResult := by
  induction n with
  | zero => simp [shutdownTrace, Shutdown]
  | succ k ih =>
    refine ⟨?_, ?_, ?_, rfl⟩ <;>
      simp only [shutdownTrace, List.count_append, ih.1, ih.2.1, ih.2.2.1] <;>
      simp [Shutdown, Nat.add_comm]

/-- C7: identity persistence is idempotent — a first run against an
absent identity file generates exactly the fresh identity and writes
it; a second run (with any other fresh randomness) reads the file back
and returns the same identity without rewriting the file; in general an
existing parsable file is returned as-is, and an unparsable (wrong
length) file is an error, never a regeneration. -/
theorem makeID_idempotent (fresh fresh' : List Nat) (hlen : fresh.length = 16) :
    makeID none fresh = .ok (fresh, some fresh) ∧
    makeID (some fresh) fresh' = .ok (fresh, some fresh) ∧
    (∀ b : List Nat, b.length = 16 → makeID (some b) fresh' = .ok (b, some b)) ∧
    (∀ b : List Nat, b.length ≠ 16 →
      makeID (some b) fresh' = .error "uuid: UUID must be exactly 16 bytes long") := by
  refine ⟨rfl, ?_, ?_, ?_⟩
  · simp [makeID, uuidFromBytes, hlen]
  · intro b hb; simp [makeID, uuidFromBytes, hb]
  · intro b hb; simp [makeID, uuidFromBytes, hb]

/-- C7 witness. -/
theorem makeID_idempotent_witness :
    makeID none (List.replicate 16 0) = .ok (List.replicate 16 0, some (List.replicate 16 0)) ∧
    makeID (some (List.replicate 16 0)) (List.replicate 16 1) =
      .ok (List.replicate 16 0, some (List.replicate 16 0)) :=
  ⟨(makeID_idempotent (List.replicate 16 0) (List.replicate 16 1) (by decide)).1,
   (makeID_idempotent (List.replicate 16 0) (List.replicate 16 1) (by decide)).2.1⟩

/-- C9: the code contradicts the claim for the public `Produce`
operation — with no producer configured, `Produce` still performs the
`Producer.Log` call, on the nil receiver, and so faults instead of
being a no-op; only the dispatch callback's telemetry step is guarded
by the nil check (it emits nothing and cannot fail when the producer is
absent). -/
theorem produce_nil_receiver :
    Produce none = ([ProduceEv.producerLogCall false],
      .error "runtime error: invalid memory address or nil pointer dereference") ∧
    (connCallback (.ok ("1.2.3.4", "56789")) (some ⟨80⟩) none (.ok ()) (.ok ())).1.count
      CbEvent.telemetryEmit = 0 ∧
    (connCallback (.ok ("1.2.3.4", "56789")) (some ⟨80⟩) none (.ok ()) (.ok ())).2 = .ok () := by
  exact ⟨rfl, rfl, rfl⟩

/-- C3 counterexample: a dispatched connection whose `SetDeadline` call
fails — the watchdog task has already been spawned, yet the callback
returns (with the deadline error, not a handler result) without ever
signaling the done-channel. -/
theorem done_signal_counterexample :
    CbEvent.spawnWatchdog ∈
      (connCallback (.ok ("1.2.3.4", "55")) (some ⟨80⟩) none
        (.error "set deadline failed") (.ok ())).1 ∧
    (connCallback (.ok ("1.2.3.4", "55")) (some ⟨80⟩) none
        (.error "set deadline failed") (.ok ())).1.count CbEvent.doneSignal = 0 ∧
    (connCallback (.ok ("1.2.3.4", "55")) (some ⟨80⟩) none
        (.error "set deadline failed") (.ok ())).2 = .error "set deadline failed" := by
  exact ⟨by decide, rfl, rfl⟩

/-- C3 amended: for every invocation of the dispatch callback that
spawns the watchdog task, IF the subsequent `SetDeadline` call succeeds
then by the time the callback returns the done-channel has been
signaled exactly once and the returned value is the handler's result;
but if `SetDeadline` fails the callback returns the deadline error
without invoking the handler and without ever signaling the
done-channel (the watchdog outlives the callback until the derived
context is canceled). -/
theorem done_signal_once_amended (split : Except String (String × String))
    (md : Option Metadata) (producerLog : Option (Except String Unit))
    (setDeadline handlerRes : Except String Unit)
    (hspawn : CbEvent.spawnWatchdog ∈
      (connCallback split md producerLog setDeadline handlerRes).1) :
    (setDeadline = .ok () →
      (connCallback split md producerLog setDeadline handlerRes).1.count
        CbEvent.doneSignal = 1 ∧
      (connCallback split md producerLog setDeadline handlerRes).2 = handlerRes) ∧
    (∀ e, setDeadline = .error e →
      CbEvent.handlerInvoke ∉ (connCallback split md producerLog setDeadline handlerRes).1 ∧
      (connCallback split md producerLog setDeadline handlerRes).1.count
        CbEvent.doneSignal = 0 ∧
      (connCallback split md producerLog setDeadline handlerRes).2 = .error e) := by
  constructor
  · intro hok
    subst hok
    rcases split with e | hp
    · simp [connCallback] at hspawn
    · rcases md with _ | m
      · simp [connCallback] at hspawn
      · rcases producerLog with _ | plr
        · simp [connCallback]
        · rcases plr with e | u
          · simp [connCallback] at hspawn
          · simp [connCallback]
  · intro e he
    subst he
    rcases split with e' | hp
    · simp [connCallback] at hspawn
    · rcases md with _ | m
      · simp [connCallback] at hspawn
      · rcases producerLog with _ | plr
        · simp [connCallback]
        · rcases plr with e' | u
          · simp [connCallback] at hspawn
          · simp [connCallback]

/-- C3 amended witness. -/
theorem done_signal_once_amended_witness :
    (connCallback (.ok ("1.2.3.4", "55")) (some ⟨80⟩) none (.ok ()) (.ok ())).1.count
      CbEvent.doneSignal = 1 ∧
    (connCallback (.ok ("1.2.3.4", "55")) (some ⟨80⟩) none (.ok ()) (.ok ())).2 = .ok () :=
  (done_signal_once_amended (.ok ("1.2.3.4", "55")) (some ⟨80⟩) none (.ok ()) (.ok ())
    (by decide)).1 rfl

/-- C5: for a dispatched connection with present metadata and a
configured producer, the telemetry record is emitted strictly before
the handler is invoked (whenever the handler runs, the telemetry event
precedes it in the callback's trace), and if the emission is performed
and fails, the callback returns that very error and never invokes the
handler. -/
theorem telemetry_before_handler (split : Except String (String × String))
    (md : Metadata) (plr setDeadline handlerRes : Except String Unit) :
    (CbEvent.handlerInvoke ∈
        (connCallback split (some md) (some plr) setDeadline handlerRes).1 →
      CbEvent.telemetryEmit ∈
        (connCallback split (some md) (some plr) setDeadline handlerRes).1 ∧
      (connCallback split (some md) (some plr) setDeadline handlerRes).1.indexOf
          CbEvent.telemetryEmit <
        (connCallback split (some md) (some plr) setDeadline handlerRes).1.indexOf
          CbEvent.handlerInvoke) ∧
    (∀ e, plr = .error e →
      CbEvent.telemetryEmit ∈
        (connCallback split (some md) (some plr) setDeadline handlerRes).1 →
      (connCallback split (some md) (some plr) setDeadline handlerRes).2 = .error e ∧
      CbEvent.handlerInvoke ∉
        (connCallback split (some md) (some plr) setDeadline handlerRes).1) := by
  rcases split with e | hp
  · refine ⟨fun hmem => ?_, fun e' he' hmem => ?_⟩ <;> simp [connCallback] at hmem
  · rcases plr with e | u
    · refine ⟨fun hmem => ?_, fun e' he' hmem => ?_⟩
      · simp [connCallback] at hmem
      · injection he' with h
        subst h
        exact ⟨rfl, of_decide_eq_true rfl⟩
    · rcases setDeadline with e | u'
      · refine ⟨fun hmem => ?_, fun e' he' hmem => ?_⟩
        · simp [connCallback] at hmem
        · simp at he'
      · refine ⟨fun hmem => ⟨of_decide_eq_true rfl, of_decide_eq_true rfl⟩,
          fun e' he' hmem => ?_⟩
        simp at he'

/-- C5 witness. -/
theorem telemetry_before_handler_witness :
    (connCallback (.ok ("1.2.3.4", "55")) (some ⟨80⟩) (some (.error "sink down"))
        (.ok ()) (.ok ())).2 = .error "sink down" ∧
    CbEvent.handlerInvoke ∉
      (connCallback (.ok ("1.2.3.4", "55")) (some ⟨80⟩) (some (.error "sink down"))
        (.ok ()) (.ok ())).1 :=
  (telemetry_before_handler (.ok ("1.2.3.4", "55")) ⟨80⟩ (.error "sink down")
    (.ok ()) (.ok ())).2 "sink down" rfl (by decide)

/-- C1: in the `registerHandlers` loop, a connection-accept callback is
registered for a rule (the registered-list grows by the resolved name)
if and only if the rule's Type is `"conn_handler"`, its Target is
non-empty, and the switch resolves to a name (proxy construction did
not fail) under which the registry holds a non-nil handler; and when
the first two conditions hold but the registry holds no handler under
the resolved name, the no-handler warning is logged and nothing is
registered. -/
theorem rule_eligibility (sshOk telnetOk : String → Bool) (st : RegState) (r : Rule) :
    ((∃ h, (processRule sshOk telnetOk st r).1.registered = st.registered ++ [h]) ↔
      (r.Type_ = "conn_handler" ∧ r.Target ≠ "" ∧
        ∃ h reg' r', resolveRule sshOk telnetOk st.protocolHandlers r = .ok (h, reg', r') ∧
          lookupGo reg' h ≠ none)) ∧
    (∀ h reg' r', r.Type_ = "conn_handler" → r.Target ≠ "" →
      resolveRule sshOk telnetOk st.protocolHandlers r = .ok (h, reg', r') →
      lookupGo reg' h = none →
      (processRule sshOk telnetOk st r).1.registered = st.registered ∧
      (processRule sshOk telnetOk st r).2.2 = [LogMsg.warnNoHandler h]) := by
  by_cases hc : r.Type_ = "conn_handler" ∧ r.Target ≠ ""
  · rcases hres : resolveRule sshOk telnetOk st.protocolHandlers r with e | ⟨h, reg', r'⟩
    · rw [processRule_proxyFail sshOk telnetOk st r hc e hres]
      refine ⟨⟨?_, ?_⟩, ?_⟩
      · rintro ⟨x, hx⟩
        exact absurd hx (by simp)
      · rintro ⟨-, -, h₂, reg₂, r₂, hok, -⟩
        exact absurd hok (by simp)
      · intro h₂ reg₂ r₂ _ _ hok _
        exact absurd hok (by simp)
    · rcases hl : lookupGo reg' h with _ | f
      · rw [processRule_warn sshOk telnetOk st r hc h reg' r' hres hl]
        refine ⟨⟨?_, ?_⟩, ?_⟩
        · rintro ⟨x, hx⟩
          exact absurd hx (by simp)
        · rintro ⟨-, -, h₂, reg₂, r₂, hok, hne⟩
          simp only [Except.ok.injEq, Prod.mk.injEq] at hok
          obtain ⟨rfl, rfl, rfl⟩ := hok
          exact absurd hl hne
        · intro h₂ reg₂ r₂ _ _ hok _
          simp only [Except.ok.injEq, Prod.mk.injEq] at hok
          obtain ⟨rfl, rfl, rfl⟩ := hok
          exact ⟨rfl, rfl⟩
      · rw [processRule_ok sshOk telnetOk st r hc h reg' r' f hres hl]
        refine ⟨⟨?_, ?_⟩, ?_⟩
        · intro _
          exact ⟨hc.1, hc.2, h, reg', r', rfl, by rw [hl]; simp⟩
        · intro _
          exact ⟨h, rfl⟩
        · intro h₂ reg₂ r₂ _ _ hok hl₂
          simp only [Except.ok.injEq, Prod.mk.injEq] at hok
          obtain ⟨rfl, rfl, rfl⟩ := hok
          rw [hl] at hl₂
          exact absurd hl₂ (by simp)
  · rw [processRule_not_eligible sshOk telnetOk st r hc]
    refine ⟨⟨?_, ?_⟩, ?_⟩
    · rintro ⟨x, hx⟩
      exact absurd hx (by simp)
    · rintro ⟨h1, h2, -⟩
      exact absurd ⟨h1, h2⟩ hc
    · intro h₂ reg₂ r₂ h1 h2 _ _
      exact absurd ⟨h1, h2⟩ hc

/-- C1 witness (warning case: eligible rule, resolved name has no
handler). -/
theorem rule_eligibility_witness :
    (processRule (fun _ => true) (fun _ => true) ⟨[], []⟩
        ⟨"conn_handler", "smtp", "smtp"⟩).1.registered = [] ∧
    (processRule (fun _ => true) (fun _ => true) ⟨[], []⟩
        ⟨"conn_handler", "smtp", "smtp"⟩).2.2 = [LogMsg.warnNoHandler "smtp"] :=
  (rule_eligibility (fun _ => true) (fun _ => true) ⟨[], []⟩
      ⟨"conn_handler", "smtp", "smtp"⟩).2 "smtp" [] ⟨"conn_handler", "smtp", "smtp"⟩
    rfl (by decide) rfl rfl

/-- C6: if SSH-proxy or telnet-proxy construction fails for a rule R,
the failure is logged and R is skipped without any effect: the state
(registry and registered callbacks) is unchanged by R's iteration, R
itself is left unmutated, and a full run over any rule list containing
R produces exactly the state of the run without R — every other
eligible rule still gets its callback. -/
theorem proxy_failure_isolation (sshOk telnetOk : String → Bool) (st : RegState)
    (r : Rule) (pre post : List Rule)
    (ht : r.Type_ = "conn_handler") (htg : r.Target ≠ "")
    (hn : (r.Name = "proxy_ssh" ∧ sshOk r.Target = false) ∨
          (r.Name = "proxy_telnet" ∧ telnetOk r.Target = false)) :
    (processRule sshOk telnetOk st r).1 = st ∧
    (processRule sshOk telnetOk st r).2.1 = r ∧
    (processRule sshOk telnetOk st r).2.2 ≠ [] ∧
    (registerHandlers sshOk telnetOk st (pre ++ r :: post)).1 =
      (registerHandlers sshOk telnetOk st (pre ++ post)).1 := by
  obtain ⟨e, he⟩ : ∃ e, ∀ st' : RegState,
      processRule sshOk telnetOk st' r = (st', r, [e]) := by
    rcases hn with ⟨hnm, hf⟩ | ⟨hnm, hf⟩
    · exact ⟨.errSSHInit, fun st' => processRule_proxyFail sshOk telnetOk st' r
        ⟨ht, htg⟩ _ (resolveRule_sshFail sshOk telnetOk _ r hnm hf)⟩
    · exact ⟨.errTelnetInit, fun st' => processRule_proxyFail sshOk telnetOk st' r
        ⟨ht, htg⟩ _ (resolveRule_telnetFail sshOk telnetOk _ r hnm hf)⟩
  refine ⟨by rw [he st], by rw [he st], by rw [he st]; simp, ?_⟩
  rw [registerHandlers_append, registerHandlers_append]
  simp only [registerHandlers]
  rw [he ((registerHandlers sshOk telnetOk st pre).1)]

/-- C6 witness. -/
theorem proxy_failure_isolation_witness :
    (processRule (fun _ => false) (fun _ => false) ⟨[("telnet", some 2)], []⟩
        ⟨"conn_handler", "proxy_ssh", "2222"⟩).1 = ⟨[("telnet", some 2)], []⟩ ∧
    (processRule (fun _ => false) (fun _ => false) ⟨[("telnet", some 2)], []⟩
        ⟨"conn_handler", "proxy_ssh", "2222"⟩).2.1 = ⟨"conn_handler", "proxy_ssh", "2222"⟩ ∧
    (processRule (fun _ => false) (fun _ => false) ⟨[("telnet", some 2)], []⟩
        ⟨"conn_handler", "proxy_ssh", "2222"⟩).2.2 ≠ [] ∧
    (registerHandlers (fun _ => false) (fun _ => false) ⟨[("telnet", some 2)], []⟩
        ([] ++ ⟨"conn_handler", "proxy_ssh", "2222"⟩ ::
          [⟨"conn_handler", "x", "telnet"⟩])).1 =
      (registerHandlers (fun _ => false) (fun _ => false) ⟨[("telnet", some 2)], []⟩
        ([] ++ [⟨"conn_handler", "x", "telnet"⟩])).1 :=
  proxy_failure_isolation (fun _ => false) (fun _ => false) ⟨[("telnet", some 2)], []⟩
    ⟨"conn_handler", "proxy_ssh", "2222"⟩ [] [⟨"conn_handler", "x", "telnet"⟩]
    rfl (by decide) (Or.inl ⟨rfl, rfl⟩)

/-- How `registerHandlers` leaves a rule it has processed, relative to
the incoming rule: `Type` and `Name` are untouched, and `Target` is
either untouched or (for an eligible `proxy_ssh`/`proxy_telnet` rule
whose proxy constructed successfully) overwritten with the rule's
`Name`. -/
def ruleFrame (sshOk telnetOk : String → Bool) (r r' : Rule) : Prop :=
  r'.Type_ = r.Type_ ∧ r'.Name = r.Name ∧
    (r'.Target = r.Target ∨
      (r.Type_ = "conn_handler" ∧ r.Target ≠ "" ∧ r'.Target = r.Name ∧
        ((r.Name = "proxy_ssh" ∧ sshOk r.Target = true) ∨
         (r.Name = "proxy_telnet" ∧ telnetOk r.Target = true))))

/-- The rule `resolveRule` hands back is the input rule, except that a
successfully constructed ssh/telnet proxy rule has its Target
overwritten with its Name. -/
lemma resolveRule_rule_part (sshOk telnetOk : String → Bool) (reg : Registry) (r : Rule)
    (h : String) (reg' : Registry) (r' : Rule)
    (hres : resolveRule sshOk telnetOk reg r = .ok (h, reg', r')) :
    r' = r ∨ (r' = { r with Target := r.Name } ∧
      ((r.Name = "proxy_ssh" ∧ sshOk r.Target = true) ∨
       (r.Name = "proxy_telnet" ∧ telnetOk r.Target = true))) := by
  unfold resolveRule at hres
  split at hres
  · left
    simp only [Except.ok.injEq, Prod.mk.injEq] at hres
    exact hres.2.2.symm
  · split at hres
    · right
      simp only [Except.ok.injEq, Prod.mk.injEq] at hres
      exact ⟨hres.2.2.symm, Or.inl ⟨by assumption, by assumption⟩⟩
    · exact absurd hres (by simp)
  · split at hres
    · right
      simp only [Except.ok.injEq, Prod.mk.injEq] at hres
      exact ⟨hres.2.2.symm, Or.inr ⟨by assumption, by assumption⟩⟩
    · exact absurd hres (by simp)
  · left
    simp only [Except.ok.injEq, Prod.mk.injEq] at hres
    exact hres.2.2.symm

/-- Each loop iteration relates its output rule to its input rule by
`ruleFrame`. -/
lemma processRule_ruleFrame (sshOk telnetOk : String → Bool) (st : RegState) (r : Rule) :
    ruleFrame sshOk telnetOk r (processRule sshOk telnetOk st r).2.1 := by
  by_cases hc : r.Type_ = "conn_handler" ∧ r.Target ≠ ""
  · rcases hres : resolveRule sshOk telnetOk st.protocolHandlers r with e | ⟨h, reg', r'⟩
    · rw [processRule_proxyFail sshOk telnetOk st r hc e hres]
      exact ⟨rfl, rfl, Or.inl rfl⟩
    · have hr' := resolveRule_rule_part sshOk telnetOk st.protocolHandlers r h reg' r' hres
      rcases hl : lookupGo reg' h with _ | f
      · rw [processRule_warn sshOk telnetOk st r hc h reg' r' hres hl]
        rcases hr' with rfl | ⟨rfl, hk⟩
        · exact ⟨rfl, rfl, Or.inl rfl⟩
        · exact ⟨rfl, rfl, Or.inr ⟨hc.1, hc.2, rfl, hk⟩⟩
      · rw [processRule_ok sshOk telnetOk st r hc h reg' r' f hres hl]
        rcases hr' with rfl | ⟨rfl, hk⟩
        · exact ⟨rfl, rfl, Or.inl rfl⟩
        · exact ⟨rfl, rfl, Or.inr ⟨hc.1, hc.2, rfl, hk⟩⟩
  · rw [processRule_not_eligible sshOk telnetOk st r hc]
    exact ⟨rfl, rfl, Or.inl rfl⟩

/-- C8 counterexample: an eligible `proxy_ssh` rule with a successful
proxy construction has its `Target` field rewritten in place from
`"2222"` to `"proxy_ssh"` by `registerHandlers` — the rule set is not
consumed read-only. -/
theorem rules_mutated_counterexample :
    (registerHandlers (fun _ => true) (fun _ => true) ⟨[("proxy_ssh", some 3)], []⟩
        [⟨"conn_handler", "proxy_ssh", "2222"⟩]).2.1 =
      [⟨"conn_handler", "proxy_ssh", "proxy_ssh"⟩] ∧
    ("proxy_ssh" : String) ≠ "2222" := by
  exact ⟨by decide, by decide⟩

/-- C8 amended: `registerHandlers` preserves `Type` and `Name` of every
rule, and preserves `Target` except for an eligible
`proxy_ssh`/`proxy_telnet` rule whose proxy constructs successfully, in
which case `Target` is overwritten in place with the rule's `Name`. -/
theorem rules_readonly_amended (sshOk telnetOk : String → Bool) (st : RegState)
    (rules : List Rule) :
    List.Forall₂ (ruleFrame sshOk telnetOk) rules
      (registerHandlers sshOk telnetOk st rules).2.1 := by
  induction rules generalizing st with
  | nil => exact List.Forall₂.nil
  | cons r rs ih =>
    exact List.Forall₂.cons (processRule_ruleFrame sshOk telnetOk st r)
      (ih (processRule sshOk telnetOk st r).1)

/-- C10 counterexample: for the eligible rule `{Type: "conn_handler",
Name: "proxy_tcp", Target: "proxy_tcp"}` (a non-empty Target, no
handler registered under `"proxy_tcp"`), `registerHandlers` registers
nothing and warns, but the Target does NOT survive as a registry key:
the `delete` of the old name immediately removes the just-inserted
key, because Target and Name coincide. -/
theorem tcp_nil_insert_counterexample :
    hasKey (registerHandlers (fun _ => true) (fun _ => true) ⟨[], []⟩
        [⟨"conn_handler", "proxy_tcp", "proxy_tcp"⟩]).1.protocolHandlers
      "proxy_tcp" = false ∧
    (registerHandlers (fun _ => true) (fun _ => true) ⟨[], []⟩
        [⟨"conn_handler", "proxy_tcp", "proxy_tcp"⟩]).1.registered = [] ∧
    (registerHandlers (fun _ => true) (fun _ => true) ⟨[], []⟩
        [⟨"conn_handler", "proxy_tcp", "proxy_tcp"⟩]).2.2 =
      [LogMsg.warnNoHandler "proxy_tcp"] := by
  exact ⟨by decide, by decide, by decide⟩

/-- C10 amended: for a rule `{Type: "conn_handler", Name: "proxy_tcp",
Target: t}` with `t` non-empty and distinct from `"proxy_tcp"`, when no
handler is registered under `"proxy_tcp"`, the iteration registers no
callback and logs the warning, yet leaves `t` behind as a registry key
mapped to the nil handler; the entry under `t` stays nil through any
later rules (the loop's only registry writes copy the nil, deleted
`"proxy_tcp"` entry), so any later rule — after any intervening rules,
and of any kind — that resolves to the name `t` also finds no usable
handler: it registers nothing and is only warned about. -/
theorem tcp_nil_insert_amended (sshOk telnetOk : String → Bool) (st : RegState)
    (t : String) (ht : t ≠ "") (htp : t ≠ "proxy_tcp")
    (hnil : lookupGo st.protocolHandlers "proxy_tcp" = none) :
    (processRule sshOk telnetOk st ⟨"conn_handler", "proxy_tcp", t⟩).1.registered =
      st.registered ∧
    (processRule sshOk telnetOk st ⟨"conn_handler", "proxy_tcp", t⟩).2.2 =
      [LogMsg.warnNoHandler t] ∧
    hasKey (processRule sshOk telnetOk st
      ⟨"conn_handler", "proxy_tcp", t⟩).1.protocolHandlers t = true ∧
    lookupGo (processRule sshOk telnetOk st
      ⟨"conn_handler", "proxy_tcp", t⟩).1.protocolHandlers t = none ∧
    (∀ mid : List Rule,
      lookupGo (registerHandlers sshOk telnetOk
        (processRule sshOk telnetOk st ⟨"conn_handler", "proxy_tcp", t⟩).1
        mid).1.protocolHandlers t = none) ∧
    (∀ (mid : List Rule) (r₂ : Rule) (reg₂ : Registry) (r₂' : Rule),
      r₂.Type_ = "conn_handler" → r₂.Target ≠ "" →
      resolveRule sshOk telnetOk
        (registerHandlers sshOk telnetOk
          (processRule sshOk telnetOk st ⟨"conn_handler", "proxy_tcp", t⟩).1
          mid).1.protocolHandlers r₂ = .ok (t, reg₂, r₂') →
      lookupGo reg₂ t = none ∧
      (processRule sshOk telnetOk
          (registerHandlers sshOk telnetOk
            (processRule sshOk telnetOk st ⟨"conn_handler", "proxy_tcp", t⟩).1
            mid).1 r₂).1.registered =
        (registerHandlers sshOk telnetOk
          (processRule sshOk telnetOk st ⟨"conn_handler", "proxy_tcp", t⟩).1
          mid).1.registered ∧
      (processRule sshOk telnetOk
          (registerHandlers sshOk telnetOk
            (processRule sshOk telnetOk st ⟨"conn_handler", "proxy_tcp", t⟩).1
            mid).1 r₂).2.2 = [LogMsg.warnNoHandler t]) := by
  have hbe : (t == "proxy_tcp") = false := by
    simp only [beq_eq_false_iff_ne, ne_eq]
    exact htp
  have hres : resolveRule sshOk telnetOk st.protocolHandlers
      ⟨"conn_handler", "proxy_tcp", t⟩ =
      .ok (t, deleteGo (insertGo st.protocolHandlers t
        (lookupGo st.protocolHandlers "proxy_tcp")) "proxy_tcp",
        ⟨"conn_handler", "proxy_tcp", t⟩) := rfl
  rw [hnil] at hres
  have hreg' : deleteGo (insertGo st.protocolHandlers t none) "proxy_tcp" =
      (t, none) :: deleteGo (deleteGo st.protocolHandlers t) "proxy_tcp" := by
    simp [insertGo, deleteGo, List.filter, bne, hbe]
  have hl : lookupGo (deleteGo (insertGo st.protocolHandlers t none) "proxy_tcp") t =
      none := by
    rw [hreg']
    simp [lookupGo, List.find?]
  have hp := processRule_warn sshOk telnetOk st ⟨"conn_handler", "proxy_tcp", t⟩
    ⟨rfl, ht⟩ t _ ⟨"conn_handler", "proxy_tcp", t⟩ hres hl
  have hkey : hasKey (deleteGo (insertGo st.protocolHandlers t none) "proxy_tcp") t =
      true := by
    rw [hreg']
    simp [hasKey, List.any]
  have inv_pt : lookupGo (deleteGo (insertGo st.protocolHandlers t none) "proxy_tcp")
      "proxy_tcp" = none := by
    rw [lookupGo_deleteGo]
    simp
  refine ⟨by rw [hp], by rw [hp], by rw [hp]; exact hkey, by rw [hp]; exact hl, ?_, ?_⟩
  · intro mid
    rw [hp]
    exact (registerHandlers_preserves_nil sshOk telnetOk
      ({ st with protocolHandlers :=
          deleteGo (insertGo st.protocolHandlers t none) "proxy_tcp" } : RegState)
      mid t inv_pt hl).2
  · intro mid r₂ reg₂ r₂' h1 h2 hres₂
    rw [hp] at hres₂ ⊢
    have hinv := registerHandlers_preserves_nil sshOk telnetOk
      ({ st with protocolHandlers :=
          deleteGo (insertGo st.protocolHandlers t none) "proxy_tcp" } : RegState)
      mid t inv_pt hl
    have hl₂ := resolveRule_registry_nil sshOk telnetOk _ r₂ t reg₂ r₂'
      hres₂ hinv.1 t hinv.2
    have hp₂ := processRule_warn sshOk telnetOk
      (registerHandlers sshOk telnetOk
        ({ st with protocolHandlers :=
            deleteGo (insertGo st.protocolHandlers t none) "proxy_tcp" } : RegState)
        mid).1 r₂ ⟨h1, h2⟩ t reg₂ r₂' hres₂ hl₂
    rw [hp₂]
    exact ⟨hl₂, rfl, rfl⟩

/-- C10 amended witness: after the proxy_tcp rule and an intervening
(successful ssh) rule, a later rule resolving to `"8080"` still finds
no usable handler and is only warned about. -/
theorem tcp_nil_insert_amended_witness :
    (processRule (fun _ => true) (fun _ => true) ⟨[], []⟩
        ⟨"conn_handler", "proxy_tcp", "8080"⟩).1.registered = [] ∧
    (processRule (fun _ => true) (fun _ => true) ⟨[], []⟩
        ⟨"conn_handler", "proxy_tcp", "8080"⟩).2.2 =
      [LogMsg.warnNoHandler "8080"] ∧
    hasKey (processRule (fun _ => true) (fun _ => true) ⟨[], []⟩
        ⟨"conn_handler", "proxy_tcp", "8080"⟩).1.protocolHandlers "8080" = true ∧
    lookupGo (registerHandlers (fun _ => true) (fun _ => true)
        (processRule (fun _ => true) (fun _ => true) ⟨[], []⟩
          ⟨"conn_handler", "proxy_tcp", "8080"⟩).1
        [⟨"conn_handler", "proxy_ssh", "2222"⟩]).1.protocolHandlers "8080" = none ∧
    (processRule (fun _ => true) (fun _ => true)
        (registerHandlers (fun _ => true) (fun _ => true)
          (processRule (fun _ => true) (fun _ => true) ⟨[], []⟩
            ⟨"conn_handler", "proxy_tcp", "8080"⟩).1
          [⟨"conn_handler", "proxy_ssh", "2222"⟩]).1
        ⟨"conn_handler", "later", "8080"⟩).1.registered =
      (registerHandlers (fun _ => true) (fun _ => true)
        (processRule (fun _ => true) (fun _ => true) ⟨[], []⟩
          ⟨"conn_handler", "proxy_tcp", "8080"⟩).1
        [⟨"conn_handler", "proxy_ssh", "2222"⟩]).1.registered ∧
    (processRule (fun _ => true) (fun _ => true)
        (registerHandlers (fun _ => true) (fun _ => true)
          (processRule (fun _ => true) (fun _ => true) ⟨[], []⟩
            ⟨"conn_handler", "proxy_tcp", "8080"⟩).1
          [⟨"conn_handler", "proxy_ssh", "2222"⟩]).1
        ⟨"conn_handler", "later", "8080"⟩).2.2 = [LogMsg.warnNoHandler "8080"] := by
  have H := tcp_nil_insert_amended (fun _ => true) (fun _ => true) ⟨[], []⟩ "8080"
    (by decide) (by decide) rfl
  have H6 := H.2.2.2.2.2 [⟨"conn_handler", "proxy_ssh", "2222"⟩]
    ⟨"conn_handler", "later", "8080"⟩ [("8080", none)]
    ⟨"conn_handler", "later", "8080"⟩ rfl (by decide) rfl
  exact ⟨H.1, H.2.1, H.2.2.1,
    H.2.2.2.2.1 [⟨"conn_handler", "proxy_ssh", "2222"⟩], H6.2.1, H6.2.2⟩

end Glutton
